import Mathlib

/-!
# Verification of the skyscrapers board validator

A shallow embedding of `src/skyscrapers.py` (repository
DariaMinieieva/skyscrapers).  Python strings are modelled as `List Char`,
a board as `List (List Char)`.  Python code that can raise an exception
(`int` conversion of a non-digit, indexing or popping an empty sequence)
is modelled in the `Option` monad: `none` means the Python call raises.
Pure code that cannot raise stays `Bool`-valued.
-/

set_option autoImplicit false

namespace Skyscrapers

/-- Python `int(c)` on a single character: the digit value for `'0'`-`'9'`,
an exception (`none`) otherwise (e.g. on `'?'` or `'*'`). -/
def pyIntOfChar (c : Char) : Option Nat :=
  if c.isDigit then some (c.toNat - Char.toNat '0') else none

/-- Digit value of a character, total version (used only under an
`isDigit` hypothesis). -/
def digitVal (c : Char) : Nat :=
  c.toNat - Char.toNat '0'

/-- In-order effectful map over a list in the `Option` monad: Python's
left-to-right evaluation where the first raised exception aborts. -/
def optMap {α β : Type} (f : α → Option β) : List α → Option (List β)
  | [] => some []
  | a :: l => do
    let b ← f a
    let bs ← optMap f l
    pure (b :: bs)

/-- Python `s.strip("*")`: remove leading and trailing `'*'` characters. -/
def pyStrip (s : List Char) : List Char :=
  ((s.dropWhile (fun c => c == '*')).reverse.dropWhile (fun c => c == '*')).reverse

/-- One step of the running-maximum loop in `check_rows`: the accumulator
is `(temp, first_num)`; a strictly taller building is appended to `temp`,
and `first_num` becomes the running maximum. -/
def visStep (acc : List Nat × Nat) (x : Nat) : List Nat × Nat :=
  (if acc.2 < x then acc.1 ++ [x] else acc.1, Nat.max x acc.2)

/-- Source `check_rows(row_1, num)`: `row_1[0]` raises on an
empty list (`none`); otherwise the loop collects the visible buildings in
`temp` and the result is `len(temp) >= num`. -/
def check_rows (row_1 : List Nat) (num : Nat) : Option Bool :=
  match row_1 with
  | [] => none
  | h :: t =>
    let p := t.foldl visStep ([h], h)
    some (decide (num ≤ p.1.length))

/-- Count of visible buildings past a running maximum `m`: a building is
counted exactly when it is strictly taller than the running maximum of
everything before it. -/
def countVis (m : Nat) : List Nat → Nat
  | [] => 0
  | x :: t => (if m < x then 1 else 0) + countVis (Nat.max x m) t

/-- The count of running-maximum elements of a height sequence: the first
height, plus each subsequent height strictly taller than every height
before it. -/
def visibleCount : List Nat → Nat
  | [] => 0
  | h :: t => 1 + countVis h t

/-- Source `check_not_finished_board(board)`: `False` iff some
row contains the unfilled marker `'?'`.  Pure, never raises. -/
def check_not_finished_board (board : List (List Char)) : Bool :=
  !(board.any (fun row => row.contains '?'))

/-- The per-row body of `check_uniqueness_in_rows`: `row.pop(0)` and
`row.pop(-1)` raise on rows of length `< 2` (`none`); otherwise blanks
are discarded and the row passes iff no remaining value repeats
(`len(row) == len(set(row))`). -/
def uniqRow (row : List Char) : Option Bool :=
  match row with
  | [] => none
  | [_] => none
  | _ :: _ :: _ =>
    let r := ((row.drop 1).dropLast).filter (fun c => c != '*')
    some (r.dedup.length == r.length)

/-- The row loop of `check_uniqueness_in_rows`: the first failing row
returns `False` immediately (so later rows are not inspected). -/
def uniqRows : List (List Char) → Option Bool
  | [] => some true
  | r :: rest => do
    let ok ← uniqRow r
    if ok then uniqRows rest else some false

/-- Source `check_uniqueness_in_rows(board)`: drop the first and
last rows (`board[1:-1]`), then run the row loop. -/
def check_uniqueness_in_rows (board : List (List Char)) : Option Bool :=
  uniqRows ((board.drop 1).dropLast)

/-- The per-row body of `check_horizontal_visibility`: build the interior
height list (`row[1:-1]` minus blanks, each converted by `int`, which
raises on `'?'`), then run `check_rows` for the left hint and for the
right hint on the reversed list, collecting the boolean results.
`row[0]` raises on an empty row. -/
def hvRow : List Char → Option (List Bool)
  | [] => none
  | c0 :: rest => do
    let row_1 ← optMap pyIntOfChar
      ((((c0 :: rest).drop 1).dropLast).filter (fun c => c != '*'))
    let cl := rest.getLastD c0
    let left ← if c0 ≠ '*' then do
        let hint ← pyIntOfChar c0
        let b ← check_rows row_1 hint
        pure [b]
      else pure []
    let right ← if cl ≠ '*' then do
        let hint ← pyIntOfChar cl
        let b ← check_rows row_1.reverse hint
        pure [b]
      else pure []
    pure (left ++ right)

/-- Source `check_horizontal_visibility(board)`: drop the first
and last rows, collect every hint result, and succeed iff `False` is not
among them.  All rows are processed before the final test, so an
exception in any row propagates. -/
def check_horizontal_visibility (board : List (List Char)) : Option Bool := do
  let results ← optMap hvRow ((board.drop 1).dropLast)
  pure (!(results.flatten.contains false))

/-- The transpose loop inside `check_columns`:
`reversed_board[i][j] = board[j][i]` for `i, j` in `range(len(board))`;
an out-of-range column index raises (`none`). -/
def transposeSrc (board : List (List Char)) : Option (List (List Char)) :=
  optMap
    (fun i => optMap (fun j => (board[j]?).bind (fun row => row[i]?))
      (List.range board.length))
    (List.range board.length)

/-- Modelled from the spec (section 4.4 column projection): position
`(i, j)` of the output equals position `(j, i)` of the input, for a
square `N x N` board. -/
def transposeSpec (board : List (List Char)) : List (List Char) :=
  (List.range board.length).map
    (fun i => (List.range board.length).map
      (fun j => (board.getD j []).getD i ' '))

/-- Source `check_columns(board)`: transpose, then uniqueness
and visibility on the transposed board, both computed, then `and`-ed. -/
def check_columns (board : List (List Char)) : Option Bool := do
  let rb ← transposeSrc board
  let u ← check_uniqueness_in_rows rb
  let v ← check_horizontal_visibility rb
  pure (u && v)

/-- Source `check_skyscrapers`, applied to the already-parsed
board (reading the file is out of scope): all four checks are computed,
in source order, then combined with `and`. -/
def check_skyscrapers (board : List (List Char)) : Option Bool := do
  let columns ← check_columns board
  let h_visibility ← check_horizontal_visibility board
  let not_finished := check_not_finished_board board
  let uniqueness ← check_uniqueness_in_rows board
  pure (columns && h_visibility && not_finished && uniqueness)

/-- Source `left_to_right_check(input_line, pivot)`: strip
blanks, convert every remaining character with `int` (raises on a
non-digit), `pop(0)` the hint (raises on an empty list), truncate to
`pivot` entries, and test whether the last of them equals their maximum
(`num[-1]` raises when `pivot == 0`). -/
def left_to_right_check (input_line : List Char) (pivot : Nat) : Option Bool := do
  let digits ← optMap pyIntOfChar (pyStrip input_line)
  match digits with
  | [] => none
  | _ :: rest =>
    match rest.take pivot with
    | [] => none
    | x :: xs => some (decide ((x :: xs).getLast (by simp) = List.foldl Nat.max x xs))

/-- Maximum of a list of naturals, `0` on the empty list. -/
def listMax (l : List Nat) : Nat :=
  l.foldr Nat.max 0

/-- The example board of the repository doctests: a fully filled,
rule-satisfying 7 x 7 board. -/
def goodBoard : List (List Char) :=
  ["***21**".toList, "412453*".toList, "423145*".toList, "*543215".toList,
   "*35214*".toList, "*41532*".toList, "*2*1***".toList]

/-- A 3 x 3 board whose single interior cell is the unfilled marker. -/
def unfilledBoard : List (List Char) :=
  ["***".toList, "*?*".toList, "***".toList]

/-- A 3-row board whose middle row has two equal interior heights. -/
def threeRowBoard : List (List Char) :=
  ["****".toList, "*11*".toList, "****".toList]

theorem foldl_visStep_length (t : List Nat) : ∀ (temp : List Nat) (m : Nat),
    ((t.foldl visStep (temp, m)).1).length = temp.length + countVis m t := by
  induction t with
  | nil => intro temp m; rfl
  | cons x t ih =>
    intro temp m
    by_cases h : m < x
    · simp [List.foldl_cons, countVis, visStep, h, ih]
      omega
    · simp [List.foldl_cons, countVis, visStep, h, ih]

theorem check_rows_eq_visibleCount (h : Nat) (t : List Nat) (num : Nat) :
    check_rows (h :: t) num = some (decide (num ≤ visibleCount (h :: t))) := by
  simp [check_rows, foldl_visStep_length, visibleCount]

/-- C2: for every non-empty height sequence and every hint `num`,
`check_rows` returns `True` iff the count of running-maximum elements
is at least `num` (the lenient policy). -/
theorem check_rows_true_iff_visibleCount (row_1 : List Nat) (num : Nat)
    (hne : row_1 ≠ []) :
    check_rows row_1 num = some true ↔ visibleCount row_1 ≥ num := by
  cases row_1 with
  | nil => exact absurd rfl hne
  | cons h t =>
    rw [check_rows_eq_visibleCount]
    simp [ge_iff_le]

theorem check_rows_true_iff_visibleCount_witness :
    ([1, 2, 4, 5, 3] : List Nat) ≠ [] ∧
      (check_rows [1, 2, 4, 5, 3] 4 = some true ↔
        visibleCount [1, 2, 4, 5, 3] ≥ 4) :=
  ⟨by decide, check_rows_true_iff_visibleCount [1, 2, 4, 5, 3] 4 (by decide)⟩

/-- C5: if the visible-building count of a non-empty sequence is `V`,
`check_rows` returns `True` for every hint `num ≤ V` and `False` for
every hint `num > V`. -/
theorem check_rows_monotone_in_hint (row_1 : List Nat) (V num : Nat)
    (hne : row_1 ≠ []) (hV : visibleCount row_1 = V) :
    (num ≤ V → check_rows row_1 num = some true) ∧
      (V < num → check_rows row_1 num = some false) := by
  cases row_1 with
  | nil => exact absurd rfl hne
  | cons h t =>
    subst hV
    refine ⟨fun hle => ?_, fun hgt => ?_⟩ <;>
      rw [check_rows_eq_visibleCount] <;> simp <;> omega

theorem check_rows_monotone_in_hint_witness :
    check_rows [2, 1, 3] 2 = some true ∧ check_rows [2, 1, 3] 3 = some false :=
  ⟨(check_rows_monotone_in_hint [2, 1, 3] 2 2 (by decide) (by decide)).1 (by decide),
   (check_rows_monotone_in_hint [2, 1, 3] 2 3 (by decide) (by decide)).2 (by decide)⟩

/-- C1: at a board whose interior holds the unfilled marker `'?'`, the
completeness check does return `False`, but the top-level validation
raises `ValueError` (from `int('?')` inside the visibility check) instead
of returning the well-defined `False` the specification promises. -/
theorem unfilled_board_completeness_false_but_validator_raises :
    check_not_finished_board unfilledBoard = false ∧
      check_skyscrapers unfilledBoard = none := by decide

/-- C4 counterexample: a 3-row board (fewer than 4 rows) on which
`check_uniqueness_in_rows` is `False`, not vacuously `True`: its single
remaining interior row is still checked. -/
theorem three_row_board_uniqueness_not_vacuous :
    threeRowBoard.length < 4 ∧
      check_uniqueness_in_rows threeRowBoard ≠ some true := by decide

/-- C4 amended: only when no interior row remains at all (fewer than 3
rows, so `board[1:-1]` is empty) is `check_uniqueness_in_rows` vacuously
`True`. -/
theorem check_uniqueness_vacuous_short_board (board : List (List Char))
    (hlen : board.length < 3) : check_uniqueness_in_rows board = some true := by
  rcases board with _ | ⟨a, _ | ⟨b, _ | ⟨c, t⟩⟩⟩
  · rfl
  · rfl
  · rfl
  · simp [List.length_cons] at hlen; omega

theorem check_uniqueness_vacuous_short_board_witness :
    ([['1', '1'], ['2', '2']] : List (List Char)).length < 3 ∧
      check_uniqueness_in_rows [['1', '1'], ['2', '2']] = some true :=
  ⟨by decide, check_uniqueness_vacuous_short_board [['1', '1'], ['2', '2']] (by decide)⟩

/-- C3: whenever the three fallible checks return values, the top-level
validator returns exactly the conjunction of the four checks: columns,
row visibility, completeness, and row uniqueness. -/
theorem check_skyscrapers_and_of_checks (board : List (List Char)) (c v u : Bool)
    (hc : check_columns board = some c)
    (hv : check_horizontal_visibility board = some v)
    (hu : check_uniqueness_in_rows board = some u) :
    check_skyscrapers board =
      some (c && v && check_not_finished_board board && u) := by
  simp [check_skyscrapers, hc, hv, hu]

theorem check_skyscrapers_and_of_checks_witness :
    check_skyscrapers goodBoard =
      some (true && true && check_not_finished_board goodBoard && true) :=
  check_skyscrapers_and_of_checks goodBoard true true true
    (by decide) (by decide) (by decide)

/-- C10: boards of equal size that differ only in their first and last
rows get the same verdict from the row-level checks, which read only the
interior rows. -/
theorem row_checks_ignore_hint_rows (b1 b2 : List (List Char))
    (hlen : b1.length = b2.length)
    (hmid : ∀ i, i < b1.length → 0 < i → i + 1 < b1.length →
      b1.getD i [] = b2.getD i []) :
    check_uniqueness_in_rows b1 = check_uniqueness_in_rows b2 ∧
      check_horizontal_visibility b1 = check_horizontal_visibility b2 := by
  have key : (b1.drop 1).dropLast = (b2.drop 1).dropLast := by
    apply List.ext_getElem
    · simp [hlen]
    · intro k hk1 hk2
      simp only [List.getElem_dropLast, List.getElem_drop]
      have hb : 1 + k < b1.length := by
        simp [List.length_dropLast, List.length_drop] at hk1
        omega
      have h2 : (1 + k) + 1 < b1.length := by
        simp [List.length_dropLast, List.length_drop] at hk1
        omega
      have := hmid (1 + k) hb (by omega) h2
      rwa [List.getD_eq_getElem _ _ hb, List.getD_eq_getElem _ _ (by omega)] at this
  exact ⟨by unfold check_uniqueness_in_rows; rw [key],
         by unfold check_horizontal_visibility; rw [key]⟩

theorem row_checks_ignore_hint_rows_witness :
    check_uniqueness_in_rows [['a'], ['1'], ['b']] =
        check_uniqueness_in_rows [['x'], ['1'], ['y']] ∧
      check_horizontal_visibility [['a'], ['1'], ['b']] =
        check_horizontal_visibility [['x'], ['1'], ['y']] :=
  row_checks_ignore_hint_rows [['a'], ['1'], ['b']] [['x'], ['1'], ['y']]
    (by decide) (by decide)

theorem dedup_length_ne_of_two_le_count {α : Type} [DecidableEq α] (l : List α)
    (c : α) (h2 : 2 ≤ l.count c) : l.dedup.length ≠ l.length := by
  intro hlen
  have heq : l.dedup = l := (List.dedup_sublist l).eq_of_length hlen
  have hnd : l.Nodup := heq ▸ l.nodup_dedup
  have := List.nodup_iff_count_le_one.mp hnd c
  omega

theorem uniqRow_false_of_dup (row : List Char) (c : Char) (hc : c ≠ '*')
    (h2 : 2 ≤ ((row.drop 1).dropLast).count c) : uniqRow row = some false := by
  match row with
  | [] => simp at h2
  | [a] => simp at h2
  | a :: b :: t =>
    have hcnt : ((((a :: b :: t).drop 1).dropLast).filter (fun x => x != '*')).count c =
        (((a :: b :: t).drop 1).dropLast).count c := by
      rw [List.count_filter]
      simp [hc]
    have hne := dedup_length_ne_of_two_le_count
      ((((a :: b :: t).drop 1).dropLast).filter (fun x => x != '*')) c (by omega)
    unfold uniqRow
    simp only [Option.some.injEq]
    simpa using hne

theorem uniqRow_isSome_of_length (row : List Char) (h : 2 ≤ row.length) :
    ∃ b, uniqRow row = some b := by
  match row with
  | [] => simp at h
  | [a] => simp at h
  | a :: b :: t => exact ⟨_, rfl⟩

theorem uniqRows_cons (a : List Char) (rest : List (List Char)) :
    uniqRows (a :: rest) =
      (uniqRow a).bind (fun ok => if ok then uniqRows rest else some false) := rfl

theorem uniqRows_false_of_dup_mem (rows : List (List Char)) (r : List Char)
    (c : Char) (hall : ∀ row ∈ rows, 2 ≤ row.length) (hmem : r ∈ rows)
    (hc : c ≠ '*') (h2 : 2 ≤ ((r.drop 1).dropLast).count c) :
    uniqRows rows = some false := by
  induction rows with
  | nil => simp at hmem
  | cons a rest ih =>
    rcases List.mem_cons.mp hmem with rfl | hmem'
    · rw [uniqRows_cons, uniqRow_false_of_dup r c hc h2]
      rfl
    · obtain ⟨b, hb⟩ := uniqRow_isSome_of_length a (hall a (List.mem_cons_self a rest))
      rw [uniqRows_cons, hb]
      cases b
      · rfl
      · simpa using ih (fun row hrow => hall row (List.mem_cons_of_mem a hrow)) hmem'

/-- C6: on a board of equal-length rows, an interior row holding the same
height digit in two interior cells makes `check_uniqueness_in_rows`
return `False` for the whole board. -/
theorem check_uniqueness_false_of_interior_dup (board : List (List Char))
    (r : List Char) (c : Char) (N : Nat)
    (hsq : ∀ row ∈ board, row.length = N)
    (hmem : r ∈ (board.drop 1).dropLast)
    (_hdigit : c.isDigit) (hc : c ≠ '*')
    (h2 : 2 ≤ ((r.drop 1).dropLast).count c) :
    check_uniqueness_in_rows board = some false := by
  have hrb : r ∈ board :=
    (List.drop_sublist 1 board).subset ((List.dropLast_sublist _).subset hmem)
  have hint_len : 2 ≤ ((r.drop 1).dropLast).length :=
    le_trans h2 (List.count_le_length c _)
  have hr4 : 4 ≤ r.length := by
    rw [List.length_dropLast, List.length_drop] at hint_len
    omega
  have hall : ∀ row ∈ (board.drop 1).dropLast, 2 ≤ row.length := by
    intro row hrow
    have : row ∈ board :=
      (List.drop_sublist 1 board).subset ((List.dropLast_sublist _).subset hrow)
    rw [hsq row this, ← hsq r hrb]
    omega
  exact uniqRows_false_of_dup_mem _ r c hall hmem hc h2

theorem check_uniqueness_false_of_interior_dup_witness :
    check_uniqueness_in_rows threeRowBoard = some false :=
  check_uniqueness_false_of_interior_dup threeRowBoard ("*11*".toList) '1' 4
    (by decide) (by decide) (by decide) (by decide) (by decide)

theorem optMap_eq_some_map {α β : Type} (f : α → Option β) (g : α → β)
    (l : List α) (h : ∀ a ∈ l, f a = some (g a)) :
    optMap f l = some (l.map g) := by
  induction l with
  | nil => rfl
  | cons a l ih =>
    unfold optMap
    rw [h a (List.mem_cons_self a l),
        ih (fun x hx => h x (List.mem_cons_of_mem a hx))]
    rfl

theorem transposeSrc_eq_spec (board : List (List Char))
    (hsq : ∀ row ∈ board, row.length = board.length) :
    transposeSrc board = some (transposeSpec board) := by
  unfold transposeSrc transposeSpec
  apply optMap_eq_some_map
  intro i hi
  rw [List.mem_range] at hi
  apply optMap_eq_some_map
  intro j hj
  rw [List.mem_range] at hj
  have hrow : board[j].length = board.length := hsq _ (board.getElem_mem hj)
  rw [List.getElem?_eq_getElem hj, Option.some_bind,
      List.getElem?_eq_getElem (by rw [hrow]; exact hi),
      List.getD_eq_getElem _ _ hj, List.getD_eq_getElem _ _ (by rw [hrow]; exact hi)]

theorem transposeSpec_length (b : List (List Char)) :
    (transposeSpec b).length = b.length := by
  simp [transposeSpec]

theorem transposeSpec_getElem_row (b : List (List Char)) (i : Nat)
    (hi : i < (transposeSpec b).length) :
    (transposeSpec b)[i] =
      (List.range b.length).map (fun j => (b.getD j []).getD i ' ') := by
  unfold transposeSpec at hi ⊢
  simp

theorem transposeSpec_getD (b : List (List Char)) (i j : Nat)
    (hi : i < b.length) (hj : j < b.length) :
    ((transposeSpec b).getD i []).getD j ' ' = (b.getD j []).getD i ' ' := by
  have hi' : i < (transposeSpec b).length := by
    rw [transposeSpec_length]; exact hi
  have hrow : (transposeSpec b).getD i [] =
      (List.range b.length).map (fun j => (b.getD j []).getD i ' ') := by
    rw [List.getD_eq_getElem _ _ hi']
    exact transposeSpec_getElem_row b i hi'
  rw [hrow, List.getD_eq_getElem _ _ (by simpa using hj)]
  simp

theorem transposeSpec_square (b : List (List Char)) :
    ∀ row ∈ transposeSpec b, row.length = (transposeSpec b).length := by
  intro row hrow
  unfold transposeSpec at hrow ⊢
  rw [List.mem_map] at hrow
  obtain ⟨i, _, rfl⟩ := hrow
  simp

theorem range_map_getD {α : Type} (l : List α) (d : α) (n : Nat)
    (h : l.length = n) : (List.range n).map (fun j => l.getD j d) = l := by
  subst h
  apply List.ext_getElem
  · simp
  · intro k hk1 hk2
    simp only [List.getElem_map, List.getElem_range]
    rw [List.getD_eq_getElem _ _ hk2]

theorem transposeSpec_transposeSpec (b : List (List Char))
    (hsq : ∀ row ∈ b, row.length = b.length) :
    transposeSpec (transposeSpec b) = b := by
  apply List.ext_getElem
  · simp [transposeSpec_length]
  · intro i hi1 hi2
    rw [transposeSpec_getElem_row (transposeSpec b) i (by simpa using hi1),
        transposeSpec_length]
    have hmap : ((List.range b.length).map
          (fun j => ((transposeSpec b).getD j []).getD i ' ')) =
        (List.range b.length).map (fun j => (b.getD i []).getD j ' ') := by
      apply List.map_congr_left
      intro j hj
      rw [List.mem_range] at hj
      exact transposeSpec_getD b j i hj hi2
    rw [hmap, List.getD_eq_getElem _ _ hi2,
        range_map_getD _ _ _ (hsq _ (b.getElem_mem hi2))]

/-- C8: for a square board, the transpose built inside `check_columns`
agrees entrywise with the specification projection (output position
`(i, j)` equals input position `(j, i)`) and transposing twice
reproduces the board exactly. -/
theorem transpose_entry_and_involution (board : List (List Char))
    (hsq : ∀ row ∈ board, row.length = board.length) :
    (∀ i j, i < board.length → j < board.length →
        ((transposeSpec board).getD i []).getD j ' ' =
          (board.getD j []).getD i ' ')
    ∧ transposeSrc board = some (transposeSpec board)
    ∧ transposeSrc (transposeSpec board) = some board := by
  refine ⟨fun i j hi hj => transposeSpec_getD board i j hi hj,
          transposeSrc_eq_spec board hsq, ?_⟩
  have h1 : transposeSrc (transposeSpec board) =
      some (transposeSpec (transposeSpec board)) :=
    transposeSrc_eq_spec _ (transposeSpec_square board)
  rw [h1, transposeSpec_transposeSpec board hsq]

theorem transpose_entry_and_involution_witness :
    transposeSrc [['a', 'b'], ['c', 'd']] =
        some (transposeSpec [['a', 'b'], ['c', 'd']]) ∧
      transposeSrc (transposeSpec [['a', 'b'], ['c', 'd']]) =
        some [['a', 'b'], ['c', 'd']] :=
  ⟨(transpose_entry_and_involution [['a', 'b'], ['c', 'd']] (by decide)).2.1,
   (transpose_entry_and_involution [['a', 'b'], ['c', 'd']] (by decide)).2.2⟩

/-- C7: on a square board, `check_columns` returns exactly the
conjunction of row uniqueness and row visibility applied to the
transposed board. -/
theorem check_columns_eq_transposed_checks (board : List (List Char))
    (u v : Bool) (hsq : ∀ row ∈ board, row.length = board.length)
    (hu : check_uniqueness_in_rows (transposeSpec board) = some u)
    (hv : check_horizontal_visibility (transposeSpec board) = some v) :
    check_columns board = some (u && v) := by
  simp [check_columns, transposeSrc_eq_spec board hsq, hu, hv]

theorem check_columns_eq_transposed_checks_witness :
    check_columns goodBoard = some (true && true) :=
  check_columns_eq_transposed_checks goodBoard true true
    (by decide) (by decide) (by decide)

theorem pyIntOfChar_digit (c : Char) (h : c.isDigit) :
    pyIntOfChar c = some (digitVal c) := by
  simp [pyIntOfChar, digitVal, h]

theorem foldl_max_eq (l : List Nat) : ∀ a : Nat,
    l.foldl Nat.max a = Nat.max a (listMax l) := by
  induction l with
  | nil => intro a; simp [listMax]
  | cons b t ih =>
    intro a
    rw [List.foldl_cons, ih (Nat.max a b)]
    show Nat.max (Nat.max a b) (listMax t) = Nat.max a (listMax (b :: t))
    rw [show listMax (b :: t) = Nat.max b (listMax t) from rfl]
    exact Nat.max_assoc a b (listMax t)

theorem left_to_right_check_eq (line : List Char) (pivot : Nat)
    (hp : 1 ≤ pivot) (hdig : ∀ c ∈ pyStrip line, c.isDigit)
    (hlen : pivot < (pyStrip line).length) :
    left_to_right_check line pivot =
      some (decide
        (((((pyStrip line).map digitVal).drop 1).take pivot).getD (pivot - 1) 0 =
          listMax ((((pyStrip line).map digitVal).drop 1).take pivot))) := by
  unfold left_to_right_check
  rw [optMap_eq_some_map pyIntOfChar digitVal _
      (fun c hc => pyIntOfChar_digit c (hdig c hc)), Option.bind_eq_bind',
      Option.some_bind]
  have hlen' : pivot < ((pyStrip line).map digitVal).length := by simpa using hlen
  cases hds : (pyStrip line).map digitVal with
  | nil => rw [hds] at hlen'; simp at hlen'
  | cons d rest =>
    rw [hds] at hlen'
    have hrest : pivot ≤ rest.length := by
      simp [List.length_cons] at hlen'
      omega
    cases htake : rest.take pivot with
    | nil =>
      have hl := congrArg List.length htake
      rw [List.length_take] at hl
      simp at hl
      rcases hl with h0 | h0
      · omega
      · subst h0
        simp at hrest
        omega
    | cons x xs =>
      have hxlen : (x :: xs).length = pivot := by
        rw [← htake, List.length_take]
        omega
      have h1 : (x :: xs).getLast (by simp) = (x :: xs).getD (pivot - 1) 0 := by
        rw [List.getLast_eq_getElem]
        simp only [hxlen]
        rw [List.getD_eq_getElem _ _ (by rw [hxlen]; omega)]
      have h2 : List.foldl Nat.max x xs = listMax (x :: xs) := by
        rw [foldl_max_eq xs x]
        rfl
      simp only [List.drop_succ_cons, List.drop_zero, htake]
      congr 1
      rw [decide_eq_decide, h1, h2]

/-- C9: under the source criterion, `left_to_right_check` succeeds iff,
after dropping the hint digit, the `pivot`-th remaining height equals the
maximum of the first `pivot` remaining heights — a criterion that is not
the at-least-`num`-visible rule of `check_rows`, as the input `"2213*"`
with pivot 2 shows. -/
theorem left_to_right_check_pivot_criterion :
    (∀ (line : List Char) (pivot : Nat),
        1 ≤ pivot → (∀ c ∈ pyStrip line, c.isDigit) →
        pivot < (pyStrip line).length →
        (left_to_right_check line pivot = some true ↔
          ((((pyStrip line).map digitVal).drop 1).take pivot).getD (pivot - 1) 0 =
            listMax ((((pyStrip line).map digitVal).drop 1).take pivot)))
    ∧ left_to_right_check ("2213*".toList) 2 = some false
    ∧ check_rows [2, 1, 3] 2 = some true := by
  refine ⟨fun line pivot hp hdig hlen => ?_, by decide, by decide⟩
  rw [left_to_right_check_eq line pivot hp hdig hlen]
  simp

theorem left_to_right_check_pivot_criterion_witness :
    left_to_right_check ("412453*".toList) 4 = some true ↔
      ((((pyStrip ("412453*".toList)).map digitVal).drop 1).take 4).getD (4 - 1) 0 =
        listMax ((((pyStrip ("412453*".toList)).map digitVal).drop 1).take 4) :=
  left_to_right_check_pivot_criterion.1 ("412453*".toList) 4
    (by decide) (by decide) (by decide)

example : check_rows [1, 2, 4, 5, 3] 4 = some true := by decide
example : check_rows [4, 5, 2, 4, 5, 3].tail 5 = some false := by decide
example : left_to_right_check ("412453*".toList) 4 = some true := by decide
example : left_to_right_check ("452453*".toList) 5 = some false := by decide
example : left_to_right_check ("2213*".toList) 2 = some false := by decide
example : check_not_finished_board unfilledBoard = false := by decide
example : check_uniqueness_in_rows goodBoard = some true := by decide
example : check_horizontal_visibility goodBoard = some true := by decide
example : check_columns goodBoard = some true := by decide
example : check_skyscrapers goodBoard = some true := by decide
example : check_skyscrapers unfilledBoard = none := by decide
example : check_uniqueness_in_rows threeRowBoard = some false := by decide

end Skyscrapers
